import Mathlib

/-!
# Verification of the Calabria wildfire dashboard core (`src/app.py`)

Shallow embedding of the data-derivation and aggregation pipeline of the
dashboard.  Records are embedded with exact rational areas (the Python code
uses floats; every claim under scrutiny is about ordering, aggregation and
guard structure, none about rounding).  The geometry is abstract: a record
carries a geometry of an arbitrary type `G`, and the reprojection / centroid
operations used by the map view are uninterpreted functions on `G`.

Correspondence with `src/app.py`:
* `season`, `sizeClass`    — lines 25–26 (derived `season` / `size` columns);
* `rangeFilter`            — line 67 and line 122 (boolean-mask year filter);
* `ymKeys/ymCount/ymArea`  — `df.groupby(["year","month"]).agg(...)`
  (pandas groupby sorts its keys ascending);
* `monthlyTS`              — lines 69–73 (group, sum, sort_values);
* `yearKeys/yearCounts/yearAreas/idxmaxBy/summaryStats` — lines 103–110
  (`Series.idxmax` returns the first index attaining the maximum and raises
  on an empty series, modelled by `Option`);
* `intRange/fullGrid/leftJoinCell/circleGrid` — lines 123–127
  (dense year×month grid, left join, `fillna(0)`);
* `maxArea/maxCount/cellRadius/cellIntensity` — lines 128–131
  (normalized radius and colour scale with Python-truthiness guards);
* `mapPoints`              — lines 93–101 (one map point per record);
* `update_dashboard`, `circle_matrix` — the two callbacks as state
  transformers over the module-level dataset `gdf`.
-/

namespace Calabria

/-- Season label, from `app.py` line 25:
`"Summer" if 5 <= m <= 10 else "Winter"`. -/
inductive Season where
  | Summer
  | Winter
deriving DecidableEq, Repr

/-- Size class, from `app.py` line 26: `"Big" if a > 100 else "Small"`. -/
inductive SizeClass where
  | Big
  | Small
deriving DecidableEq, Repr

/-- `gdf["season"]` derivation (line 25). -/
def season (m : ℕ) : Season :=
  if 5 ≤ m ∧ m ≤ 10 then Season.Summer else Season.Winter

/-- `gdf["size"]` derivation (line 26). -/
def sizeClass (a : ℚ) : SizeClass :=
  if 100 < a then SizeClass.Big else SizeClass.Small

/-- One retained row of `gdf` after the startup derivation (lines 15–26):
a geometry (abstract type `G`), the parsed calendar fields and the computed
area in hectares.  `season`/`size` are the pure derivations above applied to
`month`/`area_ha`, so they are not stored separately. -/
structure FireRecord (G : Type) where
  geom : G
  year : ℤ
  month : ℕ
  area_ha : ℚ
deriving DecidableEq

variable {G : Type}

/-- The year-range boolean mask of lines 67 and 122:
`gdf[(gdf["year"] >= a) & (gdf["year"] <= b)]`. -/
def rangeFilter (a b : ℤ) (l : List (FireRecord G)) : List (FireRecord G) :=
  l.filter (fun r => decide (a ≤ r.year) && decide (r.year ≤ b))

/-- A tiny concrete dataset (used only to instantiate proved theorems at
concrete inputs): the three-record example of the spec. -/
def sampleData : List (FireRecord Unit) :=
  [⟨(), 2020, 6, 50⟩, ⟨(), 2020, 6, 150⟩, ⟨(), 2021, 1, 10⟩]

/-! ## Grouping (pandas `groupby` with sorted keys) -/

/-- Insert a key into a strictly sorted key list, keeping it sorted and
duplicate-free.  This is the building block used to model the sorted unique
key index a pandas `groupby` produces. -/
def insertSorted {α : Type} [LinearOrder α] (x : α) : List α → List α
  | [] => [x]
  | y :: ys =>
    if x = y then y :: ys
    else if x < y then x :: y :: ys
    else y :: insertSorted x ys

/-- The sorted unique key index of `l.groupby(f)`. -/
def sortedKeys {σ α : Type} [LinearOrder α] (f : σ → α) : List σ → List α
  | [] => []
  | r :: rs => insertSorted (f r) (sortedKeys f rs)

/-! ## Summary statistics (`update_dashboard`, lines 103–110) -/

/-- Keys of `df.groupby("year")` (sorted ascending, pandas default). -/
def yearKeys (l : List (FireRecord G)) : List ℤ :=
  sortedKeys FireRecord.year l

/-- `df.groupby("year").size()` at one year. -/
def yearCount (l : List (FireRecord G)) (y : ℤ) : ℕ :=
  (l.filter (fun r => decide (r.year = y))).length

/-- `df.groupby("year")["area_ha"].sum()` at one year. -/
def yearAreaSum (l : List (FireRecord G)) (y : ℤ) : ℚ :=
  ((l.filter (fun r => decide (r.year = y))).map FireRecord.area_ha).sum

/-- The per-year fire-count series `year_counts` (line 105). -/
def yearCounts (l : List (FireRecord G)) : List (ℤ × ℕ) :=
  (yearKeys l).map (fun y => (y, yearCount l y))

/-- The per-year burned-area series `area_sums` (line 108). -/
def yearAreas (l : List (FireRecord G)) : List (ℤ × ℚ) :=
  (yearKeys l).map (fun y => (y, yearAreaSum l y))

/-- `Series.idxmax` together with `Series.max`: the first (index, value) pair
attaining the maximum value, `none` on an empty series (pandas raises
`ValueError` there). -/
def idxmaxBy {β : Type} [LinearOrder β] : List (ℤ × β) → Option (ℤ × β)
  | [] => none
  | (k, v) :: rest =>
    match idxmaxBy rest with
    | none => some (k, v)
    | some (k', v') => if v < v' then some (k', v') else some (k, v)

/-- The summary block of lines 103–116.  `none` models the `ValueError`
raised by `idxmax` on an empty filtered set. -/
structure Summary where
  total_fires : ℕ
  total_area_ha : ℚ
  peak_year_by_count : ℤ × ℕ
  peak_year_by_area : ℤ × ℚ
deriving DecidableEq, Repr

/-- `df["area_ha"].sum()` (line 104). -/
def areaSum (l : List (FireRecord G)) : ℚ :=
  (l.map FireRecord.area_ha).sum

/-- Lines 103–110 of `update_dashboard`, over the filtered set. -/
def summaryStats (l : List (FireRecord G)) : Option Summary :=
  match idxmaxBy (yearCounts l), idxmaxBy (yearAreas l) with
  | some pc, some pa => some ⟨l.length, areaSum l, pc, pa⟩
  | _, _ => none

/-! ## Monthly time series (`update_dashboard`, lines 69–73) -/

/-- The sorted month index of `groupby(["year","month"])` within one year. -/
def monthKeys (l : List (FireRecord G)) (y : ℤ) : List ℕ :=
  sortedKeys FireRecord.month (l.filter (fun r => decide (r.year = y)))

/-- The sorted unique `(year, month)` key index of
`df.groupby(["year","month"])` (lexicographically ascending, pandas
default). -/
def ymKeys (l : List (FireRecord G)) : List (ℤ × ℕ) :=
  (yearKeys l).flatMap (fun y => (monthKeys l y).map (fun m => (y, m)))

/-- Number of records in one `(year, month)` group
(`agg(count=("area_ha", "count"))`, line 126). -/
def ymCount (l : List (FireRecord G)) (k : ℤ × ℕ) : ℕ :=
  (l.filter (fun r => decide (r.year = k.1) && decide (r.month = k.2))).length

/-- Summed `area_ha` of one `(year, month)` group
(`agg(area=("area_ha", "sum"))`, lines 69 and 126). -/
def ymArea (l : List (FireRecord G)) (k : ℤ × ℕ) : ℚ :=
  ((l.filter (fun r => decide (r.year = k.1) && decide (r.month = k.2))).map
    FireRecord.area_ha).sum

/-- The rows of `ts` after `groupby(["year","month"]).agg(...).reset_index()`
(line 69): one `(year, month, total_area)` row per occurring group. -/
def monthlyRows (l : List (FireRecord G)) : List (ℤ × ℕ × ℚ) :=
  (ymKeys l).map (fun k => (k.1, k.2, ymArea l k))

/-- The `sort_values(["year", "month"])` comparison (line 73):
lexicographic on the numeric `(year, month)` columns. -/
def rowLe (p q : ℤ × ℕ × ℚ) : Bool :=
  decide (p.1 < q.1) || (decide (p.1 = q.1) && decide (p.2.1 ≤ q.2.1))

/-- `ts = ts.sort_values(["year", "month"])` (line 73) applied to the
grouped rows: the final monthly time series handed to the line chart. -/
def monthlyTS (l : List (FireRecord G)) : List (ℤ × ℕ × ℚ) :=
  (monthlyRows l).mergeSort rowLe

/-! ## Circle matrix grid (`circle_matrix`, lines 120–131) -/

/-- `list(range(year_range[0], year_range[1] + 1))` over ℤ (line 124). -/
def intRange (a b : ℤ) : List ℤ :=
  (List.range (b + 1 - a).toNat).map (fun i : ℕ => a + (i : ℤ))

/-- The dense `full_grid` of lines 123–125: the cartesian product of every
year in `[a, b]` with months 1..12, year-major as the `key`-merge of two
frames produces it. -/
def fullGrid (a b : ℤ) : List (ℤ × ℕ) :=
  (intRange a b).flatMap (fun y => (List.range 12).map (fun m => (y, m + 1)))

/-- One row of `grid` after the left join and `fillna(0)` (line 127). -/
structure Cell where
  year : ℤ
  month : ℕ
  count : ℕ
  area : ℚ
deriving DecidableEq, Repr

/-- `grouped` (line 126): one `(count, area)` aggregate row per occurring
`(year, month)` group of the filtered frame. -/
def groupedYM (l : List (FireRecord G)) : List ((ℤ × ℕ) × ℕ × ℚ) :=
  (ymKeys l).map (fun k => (k, ymCount l k, ymArea l k))

/-- `pd.merge(full_grid, grouped, on=["year","month"], how="left").fillna(0)`
at a single grid key: the matching aggregate row where the group occurred,
zeros otherwise. -/
def leftJoinCell (grouped : List ((ℤ × ℕ) × ℕ × ℚ)) (k : ℤ × ℕ) : Cell :=
  match grouped.find? (fun g => decide (g.1 = k)) with
  | some g => ⟨k.1, k.2, g.2.1, g.2.2⟩
  | none => ⟨k.1, k.2, 0, 0⟩

/-- The joined, zero-filled `grid` of `circle_matrix` (lines 122–127). -/
def circleGrid (gdf : List (FireRecord G)) (a b : ℤ) : List Cell :=
  (fullGrid a b).map (leftJoinCell (groupedYM (rangeFilter a b gdf)))

/-- Python's `column.max()` on a nonempty column; the `dflt` returned on an
empty column stands in for pandas' NaN, which can arise only for an
inverted range, where the grid has no cell to read the value. -/
def colMax {α : Type} [LinearOrder α] (dflt : α) : List α → α
  | [] => dflt
  | x :: xs => xs.foldl max x

/-- `max_area = grid["area"].max()` (line 128). -/
def maxArea (grid : List Cell) : ℚ := colMax 0 (grid.map Cell.area)

/-- `max_count = grid["count"].max()` (line 129). -/
def maxCount (grid : List Cell) : ℕ := colMax 0 (grid.map Cell.count)

/-- `grid["radius"]` (line 130): `np.sqrt(grid["area"] / max_area) * 40 if
max_area else 1` — the square-root-scaled radius when `max_area` is truthy
(nonzero), else the constant fallback `1` for every cell. -/
noncomputable def cellRadius (grid : List Cell) (c : Cell) : ℝ :=
  if maxArea grid ≠ 0 then
    Real.sqrt ((c.area : ℝ) / ((maxArea grid : ℚ) : ℝ)) * 40
  else 1

/-- `grid["color_scale"]` (line 131): `grid["count"] / max_count if
max_count else 0`. -/
def cellIntensity (grid : List Cell) (c : Cell) : ℚ :=
  if maxCount grid ≠ 0 then (c.count : ℚ) / ((maxCount grid : ℕ) : ℚ) else 0

/-! ## Map points (`update_dashboard`, lines 93–101) -/

/-- One point of the fire-locations scatter map. -/
structure MapPoint where
  lat : ℚ
  lon : ℚ
  area_ha : ℚ
  season : Season
  year : ℤ
deriving DecidableEq, Repr

/-- Lines 93–101: `gdf_wgs = df.to_crs(epsg=4326)` followed by
`lat=gdf_wgs.geometry.centroid.y, lon=gdf_wgs.geometry.centroid.x`.
`toCrs4326` is the (uninterpreted) reprojection of one geometry into
EPSG:4326 and `centroidX`/`centroidY` the (uninterpreted) centroid
coordinate extractors.  Each record of the filtered frame yields exactly
one scatter point carrying its area, its derived season colour key and its
year (the two `hover_data` columns). -/
def mapPoints (toCrs4326 : G → G) (centroidX centroidY : G → ℚ)
    (df : List (FireRecord G)) : List MapPoint :=
  df.map (fun r =>
    ⟨centroidY (toCrs4326 r.geom), centroidX (toCrs4326 r.geom),
      r.area_ha, season r.month, r.year⟩)

/-! ## The two callbacks as state transformers -/

/-- The module-level state shared by the callbacks: the dataset `gdf`
loaded and derived once at startup (lines 15–26). -/
structure AppState (G : Type) where
  gdf : List (FireRecord G)

/-- The `update_dashboard` callback (lines 66–118) as a state transformer:
`df` is the filtered frame of line 67 (taken with `.copy()`, so a value of
its own), from which the time series, the map points and the summary are
computed; the figure assembly of lines 75–101 is presentation glue over
these data products.  The first component is the module state as the
callback leaves it: no statement in the body assigns to the module-level
`gdf` — every column write targets the local `df`/`ts`. -/
def update_dashboard (toCrs4326 : G → G) (centroidX centroidY : G → ℚ)
    (s : AppState G) (yearRange : ℤ × ℤ) :
    AppState G × List (ℤ × ℕ × ℚ) × List MapPoint × Option Summary :=
  let df := rangeFilter yearRange.1 yearRange.2 s.gdf
  (s, monthlyTS df,
    mapPoints toCrs4326 centroidX centroidY df,
    summaryStats df)

/-- The `circle_matrix` callback (lines 120–146) as a state transformer:
the dense normalized grid is computed from the filtered frame; the column
writes of lines 130–131 target the local `grid` frame, never the
module-level `gdf`. -/
def circle_matrix (s : AppState G) (yearRange : ℤ × ℤ) :
    AppState G × List Cell :=
  (s, circleGrid s.gdf yearRange.1 yearRange.2)

/-! ## Empty-range behaviour -/

/-- A single-record dataset used to exhibit the empty-range behaviour. -/
def oneRecord : List (FireRecord Unit) := [⟨(), 2020, 6, 50⟩]

/-- C5: season is Summer iff `5 ≤ month ≤ 10`, size is Big iff
`area_ha > 100` strictly; the boundary cases month 4/5 and area 100/100.01
fall as the spec states. -/
theorem season_sizeClass_boundaries :
    (∀ m : ℕ, season m = Season.Summer ↔ (5 ≤ m ∧ m ≤ 10)) ∧
    (∀ m : ℕ, season m = Season.Winter ↔ ¬(5 ≤ m ∧ m ≤ 10)) ∧
    (∀ a : ℚ, sizeClass a = SizeClass.Big ↔ 100 < a) ∧
    season 5 = Season.Summer ∧ season 10 = Season.Summer ∧
    season 4 = Season.Winter ∧ season 11 = Season.Winter ∧
    sizeClass 100 = SizeClass.Small ∧ sizeClass 100.01 = SizeClass.Big := by
  refine ⟨?_, ?_, ?_, ?_, ?_, ?_, ?_, ?_, ?_⟩
  · intro m; unfold season; split <;> simp_all
  · intro m; unfold season; split <;> simp_all
  · intro a; unfold sizeClass; split <;> simp_all
  · rfl
  · rfl
  · rfl
  · rfl
  · unfold sizeClass; norm_num
  · unfold sizeClass; norm_num

/-- C6: for `a ≤ b` the range filter keeps exactly the records with
`a ≤ year ≤ b`, and the result is a sublist of the input (input order
preserved).  The filter is a pure function of the dataset value, so the
dataset itself is untouched. -/
theorem rangeFilter_spec (a b : ℤ) (h : a ≤ b) (l : List (FireRecord G)) :
    (∀ r : FireRecord G, r ∈ rangeFilter a b l ↔
      (r ∈ l ∧ a ≤ r.year ∧ r.year ≤ b)) ∧
    (rangeFilter a b l).Sublist l := by
  constructor
  · intro r
    simp [rangeFilter, List.mem_filter, and_assoc]
  · exact List.filter_sublist l

/-- Witness for C6 at the concrete sample dataset and range `[2020, 2021]`. -/
theorem rangeFilter_spec_witness :
    (2020 : ℤ) ≤ 2021 ∧
    ((∀ r : FireRecord Unit, r ∈ rangeFilter 2020 2021 sampleData ↔
        (r ∈ sampleData ∧ 2020 ≤ r.year ∧ r.year ≤ 2021)) ∧
      (rangeFilter 2020 2021 sampleData).Sublist sampleData) :=
  ⟨by decide, rangeFilter_spec 2020 2021 (by decide) sampleData⟩

theorem mem_insertSorted {α : Type} [LinearOrder α] (x z : α) (l : List α) :
    z ∈ insertSorted x l ↔ z = x ∨ z ∈ l := by
  induction l with
  | nil => simp [insertSorted]
  | cons y ys ih =>
    by_cases hxy : x = y
    · subst hxy
      simp [insertSorted, List.mem_cons]
      try tauto
    · by_cases hlt : x < y
      · simp [insertSorted, hxy, hlt, List.mem_cons]
        try tauto
      · simp [insertSorted, hxy, hlt, List.mem_cons, ih]
        try tauto

theorem sorted_insertSorted {α : Type} [LinearOrder α] (x : α) (l : List α)
    (hl : l.Pairwise (· < ·)) : (insertSorted x l).Pairwise (· < ·) := by
  induction l with
  | nil => simp [insertSorted]
  | cons y ys ih =>
    rcases List.pairwise_cons.mp hl with ⟨hy, hys⟩
    by_cases hxy : x = y
    · simpa only [insertSorted, if_pos hxy] using hl
    · by_cases hlt : x < y
      · simp only [insertSorted, if_neg hxy, if_pos hlt]
        refine List.pairwise_cons.mpr ⟨?_, hl⟩
        intro b hb
        rcases List.mem_cons.mp hb with rfl | hb
        · exact hlt
        · exact lt_trans hlt (hy b hb)
      · have hyx : y < x := lt_of_le_of_ne (not_lt.mp hlt) (fun h => hxy h.symm)
        simp only [insertSorted, if_neg hxy, if_neg hlt]
        refine List.pairwise_cons.mpr ⟨?_, ih hys⟩
        intro b hb
        rcases (mem_insertSorted x b ys).mp hb with rfl | hb
        · exact hyx
        · exact hy b hb

theorem mem_sortedKeys {σ α : Type} [LinearOrder α] (f : σ → α)
    (l : List σ) (k : α) : k ∈ sortedKeys f l ↔ ∃ r ∈ l, f r = k := by
  induction l with
  | nil => simp [sortedKeys]
  | cons r rs ih =>
    simp only [sortedKeys, mem_insertSorted, ih, List.mem_cons]
    constructor
    · rintro (rfl | ⟨s, hs, rfl⟩)
      · exact ⟨r, Or.inl rfl, rfl⟩
      · exact ⟨s, Or.inr hs, rfl⟩
    · rintro ⟨s, rfl | hs, rfl⟩
      · exact Or.inl rfl
      · exact Or.inr ⟨s, hs, rfl⟩

theorem sorted_sortedKeys {σ α : Type} [LinearOrder α] (f : σ → α)
    (l : List σ) : (sortedKeys f l).Pairwise (· < ·) := by
  induction l with
  | nil => simp [sortedKeys]
  | cons r rs ih => exact sorted_insertSorted (f r) (sortedKeys f rs) ih

theorem idxmaxBy_eq_none {β : Type} [LinearOrder β] (l : List (ℤ × β)) :
    idxmaxBy l = none ↔ l = [] := by
  cases l with
  | nil => simp [idxmaxBy]
  | cons p rest =>
    obtain ⟨k, v⟩ := p
    simp only [idxmaxBy]
    cases idxmaxBy rest with
    | none => simp
    | some q =>
      obtain ⟨k', v'⟩ := q
      by_cases h : v < v' <;> simp [h]

theorem idxmaxBy_spec {β : Type} [LinearOrder β] :
    ∀ (l : List (ℤ × β)) (k : ℤ) (v : β),
      l.Pairwise (fun p q => p.1 < q.1) →
      idxmaxBy l = some (k, v) →
      (k, v) ∈ l ∧ (∀ p ∈ l, p.2 ≤ v) ∧ (∀ p ∈ l, p.2 = v → k ≤ p.1)
  | [], k, v, _, h => by simp [idxmaxBy] at h
  | (k₀, v₀) :: rest, k, v, hp, h => by
    rcases List.pairwise_cons.mp hp with ⟨hk₀, hrest⟩
    cases hrec : idxmaxBy rest with
    | none =>
      have hnil : rest = [] := (idxmaxBy_eq_none rest).mp hrec
      rw [idxmaxBy, hrec] at h
      injection h with h'
      injection h' with h1 h2
      subst h1; subst h2; subst hnil
      refine ⟨List.mem_cons_self _ _, ?_, ?_⟩
      · intro p hp'
        rcases List.mem_cons.mp hp' with rfl | hp'
        · exact le_refl _
        · simp at hp'
      · intro p hp' _
        rcases List.mem_cons.mp hp' with rfl | hp'
        · exact le_refl _
        · simp at hp'
    | some q =>
      obtain ⟨k', v'⟩ := q
      have IH := idxmaxBy_spec rest k' v' hrest hrec
      rw [idxmaxBy, hrec] at h
      by_cases hlt : v₀ < v'
      · rw [show (match some (k', v') with
            | none => some (k₀, v₀)
            | some (k', v') => if v₀ < v' then some (k', v') else some (k₀, v₀))
            = if v₀ < v' then some (k', v') else some (k₀, v₀) from rfl,
          if_pos hlt] at h
        injection h with h'
        injection h' with h1 h2
        subst h1; subst h2
        refine ⟨List.mem_cons_of_mem _ IH.1, ?_, ?_⟩
        · intro p hp'
          rcases List.mem_cons.mp hp' with rfl | hp'
          · exact le_of_lt hlt
          · exact IH.2.1 p hp'
        · intro p hp' hpv
          rcases List.mem_cons.mp hp' with rfl | hp'
          · exact absurd hpv (ne_of_lt hlt)
          · exact IH.2.2 p hp' hpv
      · rw [show (match some (k', v') with
            | none => some (k₀, v₀)
            | some (k', v') => if v₀ < v' then some (k', v') else some (k₀, v₀))
            = if v₀ < v' then some (k', v') else some (k₀, v₀) from rfl,
          if_neg hlt] at h
        injection h with h'
        injection h' with h1 h2
        subst h1; subst h2
        refine ⟨List.mem_cons_self _ _, ?_, ?_⟩
        · intro p hp'
          rcases List.mem_cons.mp hp' with rfl | hp'
          · exact le_refl _
          · exact le_trans (IH.2.1 p hp') (not_lt.mp hlt)
        · intro p hp' _
          rcases List.mem_cons.mp hp' with rfl | hp'
          · exact le_refl _
          · exact le_of_lt (hk₀ p hp')

theorem mem_yearKeys (l : List (FireRecord G)) (y : ℤ) :
    y ∈ yearKeys l ↔ ∃ r ∈ l, r.year = y :=
  mem_sortedKeys FireRecord.year l y

theorem yearKeys_ne_nil (l : List (FireRecord G)) (h : l ≠ []) :
    yearKeys l ≠ [] := by
  obtain ⟨r, rs, rfl⟩ := List.exists_cons_of_ne_nil h
  intro hk
  have : r.year ∈ yearKeys (r :: rs) :=
    (mem_yearKeys _ _).mpr ⟨r, List.mem_cons_self _ _, rfl⟩
  rw [hk] at this
  simp at this

/-- C4: on a nonempty filtered set the summary block reports the record
count, the exact area total, and for each of the two peak statistics the
earliest year attaining the true per-year maximum together with that
maximum. -/
theorem summaryStats_spec (l : List (FireRecord G)) (h : l ≠ []) :
    ∃ pc : ℤ × ℕ, ∃ pa : ℤ × ℚ,
      summaryStats l = some ⟨l.length, areaSum l, pc, pa⟩ ∧
      (∃ r ∈ l, r.year = pc.1) ∧ yearCount l pc.1 = pc.2 ∧
      (∀ y : ℤ, (∃ r ∈ l, r.year = y) → yearCount l y ≤ pc.2) ∧
      (∀ y : ℤ, (∃ r ∈ l, r.year = y) → yearCount l y = pc.2 → pc.1 ≤ y) ∧
      (∃ r ∈ l, r.year = pa.1) ∧ yearAreaSum l pa.1 = pa.2 ∧
      (∀ y : ℤ, (∃ r ∈ l, r.year = y) → yearAreaSum l y ≤ pa.2) ∧
      (∀ y : ℤ, (∃ r ∈ l, r.year = y) → yearAreaSum l y = pa.2 → pa.1 ≤ y) := by
  have hkeys : yearKeys l ≠ [] := yearKeys_ne_nil l h
  have hsorted : (yearKeys l).Pairwise (· < ·) := sorted_sortedKeys _ l
  have hpc : (yearCounts l).Pairwise (fun p q => p.1 < q.1) := by
    unfold yearCounts
    exact (List.pairwise_map).mpr hsorted
  have hpa : (yearAreas l).Pairwise (fun p q => p.1 < q.1) := by
    unfold yearAreas
    exact (List.pairwise_map).mpr hsorted
  have hcne : yearCounts l ≠ [] := by
    unfold yearCounts; simpa using hkeys
  have hane : yearAreas l ≠ [] := by
    unfold yearAreas; simpa using hkeys
  obtain ⟨pc, hpcEq⟩ : ∃ pc, idxmaxBy (yearCounts l) = some pc := by
    cases hx : idxmaxBy (yearCounts l) with
    | none => exact absurd ((idxmaxBy_eq_none _).mp hx) hcne
    | some pc => exact ⟨pc, rfl⟩
  obtain ⟨pa, hpaEq⟩ : ∃ pa, idxmaxBy (yearAreas l) = some pa := by
    cases hx : idxmaxBy (yearAreas l) with
    | none => exact absurd ((idxmaxBy_eq_none _).mp hx) hane
    | some pa => exact ⟨pa, rfl⟩
  obtain ⟨kc, vc⟩ := pc
  obtain ⟨ka, va⟩ := pa
  have SC := idxmaxBy_spec (yearCounts l) kc vc hpc hpcEq
  have SA := idxmaxBy_spec (yearAreas l) ka va hpa hpaEq
  have hmemC := SC.1
  unfold yearCounts at hmemC
  rcases List.mem_map.mp hmemC with ⟨yc, hyc, hEqc⟩
  rw [Prod.mk.injEq] at hEqc
  obtain ⟨rfl, rfl⟩ := hEqc
  have hmemA := SA.1
  unfold yearAreas at hmemA
  rcases List.mem_map.mp hmemA with ⟨ya, hya, hEqa⟩
  rw [Prod.mk.injEq] at hEqa
  obtain ⟨rfl, rfl⟩ := hEqa
  refine ⟨(yc, yearCount l yc), (ya, yearAreaSum l ya),
    ?_, (mem_yearKeys l yc).mp hyc, rfl, ?_, ?_,
    (mem_yearKeys l ya).mp hya, rfl, ?_, ?_⟩
  · unfold summaryStats
    rw [hpcEq, hpaEq]
  · intro y hy
    have hmem : (y, yearCount l y) ∈ yearCounts l := by
      unfold yearCounts
      exact List.mem_map.mpr ⟨y, (mem_yearKeys l y).mpr hy, rfl⟩
    exact SC.2.1 _ hmem
  · intro y hy hmax
    have hmem : (y, yearCount l y) ∈ yearCounts l := by
      unfold yearCounts
      exact List.mem_map.mpr ⟨y, (mem_yearKeys l y).mpr hy, rfl⟩
    exact SC.2.2 _ hmem hmax
  · intro y hy
    have hmem : (y, yearAreaSum l y) ∈ yearAreas l := by
      unfold yearAreas
      exact List.mem_map.mpr ⟨y, (mem_yearKeys l y).mpr hy, rfl⟩
    exact SA.2.1 _ hmem
  · intro y hy hmax
    have hmem : (y, yearAreaSum l y) ∈ yearAreas l := by
      unfold yearAreas
      exact List.mem_map.mpr ⟨y, (mem_yearKeys l y).mpr hy, rfl⟩
    exact SA.2.2 _ hmem hmax

/-- Witness for C4 at the three-record sample dataset of the spec. -/
theorem summaryStats_spec_witness :
    sampleData ≠ [] ∧
    (∃ pc : ℤ × ℕ, ∃ pa : ℤ × ℚ,
      summaryStats sampleData =
        some ⟨sampleData.length, areaSum sampleData, pc, pa⟩ ∧
      (∃ r ∈ sampleData, r.year = pc.1) ∧ yearCount sampleData pc.1 = pc.2 ∧
      (∀ y : ℤ, (∃ r ∈ sampleData, r.year = y) →
        yearCount sampleData y ≤ pc.2) ∧
      (∀ y : ℤ, (∃ r ∈ sampleData, r.year = y) →
        yearCount sampleData y = pc.2 → pc.1 ≤ y) ∧
      (∃ r ∈ sampleData, r.year = pa.1) ∧ yearAreaSum sampleData pa.1 = pa.2 ∧
      (∀ y : ℤ, (∃ r ∈ sampleData, r.year = y) →
        yearAreaSum sampleData y ≤ pa.2) ∧
      (∀ y : ℤ, (∃ r ∈ sampleData, r.year = y) →
        yearAreaSum sampleData y = pa.2 → pa.1 ≤ y)) :=
  ⟨by decide, summaryStats_spec sampleData (by decide)⟩

theorem rowLe_trans (p q s : ℤ × ℕ × ℚ) :
    rowLe p q = true → rowLe q s = true → rowLe p s = true := by
  simp only [rowLe, Bool.or_eq_true, Bool.and_eq_true, decide_eq_true_eq]
  omega

theorem rowLe_total (p q : ℤ × ℕ × ℚ) : (rowLe p q || rowLe q p) = true := by
  simp only [rowLe, Bool.or_eq_true, Bool.and_eq_true, decide_eq_true_eq]
  omega

theorem mem_ymKeys (l : List (FireRecord G)) (k : ℤ × ℕ) :
    k ∈ ymKeys l ↔ ∃ r ∈ l, r.year = k.1 ∧ r.month = k.2 := by
  unfold ymKeys monthKeys
  simp only [List.mem_flatMap, List.mem_map, mem_yearKeys, mem_sortedKeys,
    List.mem_filter, decide_eq_true_eq]
  constructor
  · rintro ⟨y, _, m, ⟨r, ⟨hr, hry⟩, hrm⟩, rfl⟩
    exact ⟨r, hr, hry, hrm⟩
  · rintro ⟨r, hr, hy, hm⟩
    exact ⟨k.1, ⟨r, hr, hy⟩, k.2, ⟨r, ⟨hr, hy⟩, hm⟩, Prod.mk.eta⟩

theorem ymKeys_pairwise (l : List (FireRecord G)) :
    (ymKeys l).Pairwise
      (fun p q : ℤ × ℕ => p.1 < q.1 ∨ (p.1 = q.1 ∧ p.2 < q.2)) := by
  unfold ymKeys
  rw [List.pairwise_flatMap]
  constructor
  · intro y _
    rw [List.pairwise_map]
    exact (sorted_sortedKeys _ _).imp (fun hab => Or.inr ⟨rfl, hab⟩)
  · refine (sorted_sortedKeys _ _).imp ?_
    intro y1 y2 h12
    intro x hx z hz
    rcases List.mem_map.mp hx with ⟨m1, _, rfl⟩
    rcases List.mem_map.mp hz with ⟨m2, _, rfl⟩
    exact Or.inl h12

theorem ymKeys_nodup (l : List (FireRecord G)) : (ymKeys l).Nodup := by
  refine (ymKeys_pairwise l).imp ?_
  intro p q h heq
  subst heq
  rcases h with h | ⟨_, h⟩ <;> exact lt_irrefl _ h

/-- C7: the monthly time series has exactly one row per occurring
`(year, month)` group carrying the group's `area_ha` sum, and its rows are
strictly sorted by `(year, month)` lexicographically — i.e. ascending in
year, and within a year in calendar month order. -/
theorem monthlyTS_spec (l : List (FireRecord G)) :
    ((monthlyTS l).Pairwise (fun p q : ℤ × ℕ × ℚ =>
        p.1 < q.1 ∨ (p.1 = q.1 ∧ p.2.1 < q.2.1))) ∧
    (∀ (y : ℤ) (m : ℕ) (s : ℚ),
      (y, m, s) ∈ monthlyTS l ↔
        ((∃ r ∈ l, r.year = y ∧ r.month = m) ∧ s = ymArea l (y, m))) := by
  have hperm : (monthlyTS l).Perm (monthlyRows l) :=
    List.mergeSort_perm (monthlyRows l) rowLe
  constructor
  · have hsorted : (monthlyTS l).Pairwise (fun p q => rowLe p q = true) :=
      List.sorted_mergeSort rowLe_trans rowLe_total (monthlyRows l)
    have hkeysRows :
        (monthlyRows l).map (fun p : ℤ × ℕ × ℚ => (p.1, p.2.1)) = ymKeys l := by
      unfold monthlyRows
      rw [List.map_map]
      exact (List.map_congr_left (fun k _ => rfl)).trans (List.map_id _)
    have hnodup : ((monthlyTS l).map
        (fun p : ℤ × ℕ × ℚ => (p.1, p.2.1))).Nodup := by
      rw [(hperm.map _).nodup_iff, hkeysRows]
      exact ymKeys_nodup l
    have hne : (monthlyTS l).Pairwise
        (fun p q : ℤ × ℕ × ℚ => (p.1, p.2.1) ≠ (q.1, q.2.1)) :=
      (List.pairwise_map).mp hnodup
    refine (hsorted.and hne).imp ?_
    intro p q hpq
    obtain ⟨hle, hne'⟩ := hpq
    simp only [rowLe, Bool.or_eq_true, Bool.and_eq_true, decide_eq_true_eq]
      at hle
    have : ¬(p.1 = q.1 ∧ p.2.1 = q.2.1) := by
      intro hc
      exact hne' (by rw [hc.1, hc.2])
    rcases hle with h | ⟨h1, h2⟩
    · exact Or.inl h
    · refine Or.inr ⟨h1, lt_of_le_of_ne h2 ?_⟩
      intro hm
      exact this ⟨h1, hm⟩
  · intro y m s
    rw [hperm.mem_iff]
    unfold monthlyRows
    simp only [List.mem_map]
    constructor
    · rintro ⟨k, hk, hEq⟩
      rw [Prod.mk.injEq] at hEq
      obtain ⟨h1, hEq2⟩ := hEq
      rw [Prod.mk.injEq] at hEq2
      obtain ⟨h2, h3⟩ := hEq2
      have hk' : k = (y, m) := by
        rw [← h1, ← h2]
      subst hk'
      exact ⟨(mem_ymKeys l _).mp hk, h3.symm⟩
    · rintro ⟨hex, rfl⟩
      exact ⟨(y, m), (mem_ymKeys l (y, m)).mpr hex, rfl⟩

theorem le_foldl_max {α : Type} [LinearOrder α] (l : List α) (a : α) :
    a ≤ l.foldl max a := by
  induction l generalizing a with
  | nil => exact le_refl a
  | cons x xs ih => exact le_trans (le_max_left a x) (ih (max a x))

theorem mem_le_foldl_max {α : Type} [LinearOrder α] (l : List α) :
    ∀ a x : α, x ∈ l → x ≤ l.foldl max a := by
  induction l with
  | nil => intro a x hx; simp at hx
  | cons y ys ih =>
    intro a x hx
    rcases List.mem_cons.mp hx with rfl | hx
    · exact le_trans (le_max_right a x) (le_foldl_max ys (max a x))
    · exact ih (max a y) x hx

theorem mem_le_colMax {α : Type} [LinearOrder α] (d : α) (l : List α)
    (x : α) (hx : x ∈ l) : x ≤ colMax d l := by
  cases l with
  | nil => simp at hx
  | cons y ys =>
    rcases List.mem_cons.mp hx with rfl | hx
    · exact le_foldl_max ys x
    · exact mem_le_foldl_max ys y x hx

theorem mem_intRange (a b y : ℤ) : y ∈ intRange a b ↔ a ≤ y ∧ y ≤ b := by
  unfold intRange
  constructor
  · intro hy
    rcases List.mem_map.mp hy with ⟨i, hi, rfl⟩
    rw [List.mem_range] at hi
    omega
  · rintro ⟨h1, h2⟩
    refine List.mem_map.mpr ⟨(y - a).toNat, ?_, ?_⟩
    · rw [List.mem_range]; omega
    · omega

theorem intRange_pairwise (a b : ℤ) : (intRange a b).Pairwise (· < ·) := by
  unfold intRange
  rw [List.pairwise_map]
  exact (List.pairwise_lt_range _).imp (fun h => by omega)

theorem mem_fullGrid (a b : ℤ) (y : ℤ) (m : ℕ) :
    (y, m) ∈ fullGrid a b ↔ (a ≤ y ∧ y ≤ b ∧ 1 ≤ m ∧ m ≤ 12) := by
  unfold fullGrid
  simp only [List.mem_flatMap, List.mem_map, List.mem_range, mem_intRange]
  constructor
  · rintro ⟨y', hy', m', hm', hEq⟩
    rw [Prod.mk.injEq] at hEq
    obtain ⟨rfl, rfl⟩ := hEq
    omega
  · rintro ⟨h1, h2, h3, h4⟩
    refine ⟨y, ⟨h1, h2⟩, m - 1, by omega, ?_⟩
    have hm : m - 1 + 1 = m := by omega
    rw [hm]

theorem fullGrid_pairwise (a b : ℤ) :
    (fullGrid a b).Pairwise
      (fun p q : ℤ × ℕ => p.1 < q.1 ∨ (p.1 = q.1 ∧ p.2 < q.2)) := by
  unfold fullGrid
  rw [List.pairwise_flatMap]
  constructor
  · intro y _
    rw [List.pairwise_map]
    exact (List.pairwise_lt_range _).imp (fun h => Or.inr ⟨rfl, by omega⟩)
  · refine (intRange_pairwise a b).imp ?_
    intro y1 y2 h12 x hx z hz
    rcases List.mem_map.mp hx with ⟨m1, _, rfl⟩
    rcases List.mem_map.mp hz with ⟨m2, _, rfl⟩
    exact Or.inl h12

theorem fullGrid_nodup (a b : ℤ) : (fullGrid a b).Nodup := by
  refine (fullGrid_pairwise a b).imp ?_
  intro p q h heq
  subst heq
  rcases h with h | ⟨_, h⟩ <;> exact lt_irrefl _ h

theorem fullGrid_length (a b : ℤ) (h : a ≤ b) :
    ((fullGrid a b).length : ℤ) = (b - a + 1) * 12 := by
  have h12 : ∀ y : ℤ, ((List.range 12).map (fun m => (y, m + 1))).length = 12 := by
    intro y; simp
  have hlen : (fullGrid a b).length = (intRange a b).length * 12 := by
    unfold fullGrid
    rw [List.length_flatMap]
    have : (intRange a b).map (List.length ∘ fun y =>
        (List.range 12).map (fun m => (y, m + 1)))
        = (intRange a b).map (fun _ => 12) := by
      refine List.map_congr_left ?_
      intro y _
      simp
    rw [this]
    induction intRange a b with
    | nil => rfl
    | cons y ys ih => simp [ih, Nat.succ_mul, Nat.add_comm]
  have hir : (intRange a b).length = (b + 1 - a).toNat := by
    unfold intRange
    rw [List.length_map, List.length_range]
  rw [hlen, hir]
  push_cast
  omega

theorem leftJoinCell_groupedYM (l : List (FireRecord G)) (k : ℤ × ℕ) :
    leftJoinCell (groupedYM l) k = ⟨k.1, k.2, ymCount l k, ymArea l k⟩ := by
  unfold leftJoinCell
  cases hf : (groupedYM l).find? (fun g => decide (g.1 = k)) with
  | some g =>
    have hk : g.1 = k := by
      have := List.find?_some hf
      simpa using this
    have hg : g ∈ groupedYM l := List.mem_of_find?_eq_some hf
    unfold groupedYM at hg
    rcases List.mem_map.mp hg with ⟨k', _, rfl⟩
    simp only at hk
    subst hk
    rfl
  | none =>
    have hnk : k ∉ ymKeys l := by
      intro hk
      have hmem : (k, ymCount l k, ymArea l k) ∈ groupedYM l := by
        unfold groupedYM
        exact List.mem_map.mpr ⟨k, hk, rfl⟩
      have := List.find?_eq_none.mp hf _ hmem
      simp at this
    have hfilter :
        l.filter (fun r => decide (r.year = k.1) && decide (r.month = k.2))
          = [] := by
      rw [List.filter_eq_nil_iff]
      intro r hr
      simp only [Bool.and_eq_true, decide_eq_true_eq, not_and]
      intro hy hm
      exact hnk ((mem_ymKeys l k).mpr ⟨r, hr, hy, hm⟩)
    have hc : ymCount l k = 0 := by
      unfold ymCount; rw [hfilter]; rfl
    have ha : ymArea l k = 0 := by
      unfold ymArea; rw [hfilter]; rfl
    rw [hc, ha]

/-- C2: for `a ≤ b` the circle-matrix grid has exactly `(b - a + 1) * 12`
cells, keyed bijectively by the `(year, month)` pairs with `a ≤ year ≤ b`
and `1 ≤ month ≤ 12` (no duplicates, no gaps), and every cell whose
`(year, month)` matches no filtered record carries `count = 0` and
`area = 0`. -/
theorem circleGrid_complete (gdf : List (FireRecord G)) (a b : ℤ)
    (h : a ≤ b) :
    (((circleGrid gdf a b).length : ℤ) = (b - a + 1) * 12) ∧
    ((circleGrid gdf a b).map (fun c => (c.year, c.month))).Nodup ∧
    (∀ (y : ℤ) (m : ℕ),
      (y, m) ∈ (circleGrid gdf a b).map (fun c => (c.year, c.month)) ↔
        (a ≤ y ∧ y ≤ b ∧ 1 ≤ m ∧ m ≤ 12)) ∧
    (∀ c ∈ circleGrid gdf a b,
      (¬∃ r ∈ rangeFilter a b gdf, r.year = c.year ∧ r.month = c.month) →
        c.count = 0 ∧ c.area = 0) := by
  have hkeys : (circleGrid gdf a b).map (fun c => (c.year, c.month))
      = fullGrid a b := by
    unfold circleGrid
    rw [List.map_map]
    have : ((fun c : Cell => (c.year, c.month)) ∘
        leftJoinCell (groupedYM (rangeFilter a b gdf))) = id := by
      funext k
      simp [Function.comp, leftJoinCell_groupedYM]
    rw [this, List.map_id]
  refine ⟨?_, ?_, ?_, ?_⟩
  · have : (circleGrid gdf a b).length = (fullGrid a b).length := by
      unfold circleGrid
      exact List.length_map _ _
    rw [this]
    exact fullGrid_length a b h
  · rw [hkeys]; exact fullGrid_nodup a b
  · intro y m
    rw [hkeys]
    exact mem_fullGrid a b y m
  · intro c hc hno
    unfold circleGrid at hc
    rcases List.mem_map.mp hc with ⟨k, _, rfl⟩
    rw [leftJoinCell_groupedYM] at hno ⊢
    have hfilter :
        (rangeFilter a b gdf).filter
          (fun r => decide (r.year = k.1) && decide (r.month = k.2)) = [] := by
      rw [List.filter_eq_nil_iff]
      intro r hr
      simp only [Bool.and_eq_true, decide_eq_true_eq, not_and]
      intro hy hm
      exact hno ⟨r, hr, hy, hm⟩
    constructor
    · show ymCount (rangeFilter a b gdf) k = 0
      unfold ymCount; rw [hfilter]; rfl
    · show ymArea (rangeFilter a b gdf) k = 0
      unfold ymArea; rw [hfilter]; rfl

/-- Witness for C2 at the sample dataset over the range `[2020, 2021]`. -/
theorem circleGrid_complete_witness :
    (2020 : ℤ) ≤ 2021 ∧
    ((((circleGrid sampleData 2020 2021).length : ℤ)
        = (2021 - 2020 + 1) * 12) ∧
    ((circleGrid sampleData 2020 2021).map (fun c => (c.year, c.month))).Nodup ∧
    (∀ (y : ℤ) (m : ℕ),
      (y, m) ∈ (circleGrid sampleData 2020 2021).map
          (fun c => (c.year, c.month)) ↔
        (2020 ≤ y ∧ y ≤ 2021 ∧ 1 ≤ m ∧ m ≤ 12)) ∧
    (∀ c ∈ circleGrid sampleData 2020 2021,
      (¬∃ r ∈ rangeFilter 2020 2021 sampleData,
          r.year = c.year ∧ r.month = c.month) →
        c.count = 0 ∧ c.area = 0)) :=
  ⟨by decide, circleGrid_complete sampleData 2020 2021 (by decide)⟩

/-- C3: every grid cell's colour intensity lies in `[0, 1]` and its radius
is nonnegative; when the grid-wide maximum area is zero every radius equals
the constant fallback `1`, and when the maximum count is zero every
intensity is `0` — the two normalizations never divide by zero. -/
theorem circleGrid_normalization (gdf : List (FireRecord G)) (a b : ℤ) :
    ∀ c ∈ circleGrid gdf a b,
      0 ≤ cellIntensity (circleGrid gdf a b) c ∧
      cellIntensity (circleGrid gdf a b) c ≤ 1 ∧
      0 ≤ cellRadius (circleGrid gdf a b) c ∧
      (maxArea (circleGrid gdf a b) = 0 →
        cellRadius (circleGrid gdf a b) c = 1) ∧
      (maxCount (circleGrid gdf a b) = 0 →
        cellIntensity (circleGrid gdf a b) c = 0) := by
  intro c hc
  set grid := circleGrid gdf a b with hgrid
  have hcountle : c.count ≤ maxCount grid :=
    mem_le_colMax 0 (grid.map Cell.count) c.count
      (List.mem_map.mpr ⟨c, hc, rfl⟩)
  refine ⟨?_, ?_, ?_, ?_, ?_⟩
  · unfold cellIntensity
    split
    · positivity
    · exact le_refl 0
  · unfold cellIntensity
    split
    next hne =>
      rw [div_le_one (by exact_mod_cast Nat.pos_of_ne_zero hne)]
      exact_mod_cast hcountle
    next => exact zero_le_one
  · unfold cellRadius
    split
    · positivity
    · exact zero_le_one
  · intro hma
    unfold cellRadius
    rw [if_neg (by simpa using hma)]
  · intro hmc
    unfold cellIntensity
    rw [if_neg (by simpa using hmc)]

/-- Witness for C3 at the January cell of the all-empty one-year grid. -/
theorem circleGrid_normalization_witness :
    (⟨2020, 1, 0, 0⟩ : Cell) ∈
      circleGrid ([] : List (FireRecord Unit)) 2020 2020 ∧
    (0 ≤ cellIntensity (circleGrid ([] : List (FireRecord Unit)) 2020 2020)
        ⟨2020, 1, 0, 0⟩ ∧
      cellIntensity (circleGrid ([] : List (FireRecord Unit)) 2020 2020)
        ⟨2020, 1, 0, 0⟩ ≤ 1 ∧
      0 ≤ cellRadius (circleGrid ([] : List (FireRecord Unit)) 2020 2020)
        ⟨2020, 1, 0, 0⟩ ∧
      (maxArea (circleGrid ([] : List (FireRecord Unit)) 2020 2020) = 0 →
        cellRadius (circleGrid ([] : List (FireRecord Unit)) 2020 2020)
          ⟨2020, 1, 0, 0⟩ = 1) ∧
      (maxCount (circleGrid ([] : List (FireRecord Unit)) 2020 2020) = 0 →
        cellIntensity (circleGrid ([] : List (FireRecord Unit)) 2020 2020)
          ⟨2020, 1, 0, 0⟩ = 0)) :=
  ⟨by decide, circleGrid_normalization [] 2020 2020 ⟨2020, 1, 0, 0⟩ (by decide)⟩

/-- C10: the map view emits exactly one point per filtered record — the
point list has the same length as the record list, and the i-th point is
the centroid (after reprojection) of the i-th record's geometry paired
with that record's `area_ha`, season and year. -/
theorem mapPoints_spec (toCrs4326 : G → G) (centroidX centroidY : G → ℚ)
    (df : List (FireRecord G)) :
    (mapPoints toCrs4326 centroidX centroidY df).length = df.length ∧
    (∀ i : ℕ, (mapPoints toCrs4326 centroidX centroidY df)[i]? =
      (df[i]?).map (fun r =>
        ⟨centroidY (toCrs4326 r.geom), centroidX (toCrs4326 r.geom),
          r.area_ha, season r.month, r.year⟩)) := by
  constructor
  · exact List.length_map _ _
  · intro i
    exact List.getElem?_map _ _ _

/-- C9: neither callback modifies the shared loaded dataset — each returns
the module state exactly as it found it, all derived frames being local
values. -/
theorem callbacks_preserve_dataset (toCrs4326 : G → G)
    (centroidX centroidY : G → ℚ) (s : AppState G) (yearRange : ℤ × ℤ) :
    (update_dashboard toCrs4326 centroidX centroidY s yearRange).1 = s ∧
    (circle_matrix s yearRange).1 = s :=
  ⟨rfl, rfl⟩

/-- C1 evaluation at the failing input: for YearRange `[2021, 2021]` the
filtered set of `oneRecord` is empty; `circle_matrix` completes, producing
twelve all-zero cells with the constant fallback radius `1` and intensity
`0`, but the summary computation of `update_dashboard` does not complete:
`idxmax` on the empty per-year series raises `ValueError` (modelled as
`none`) instead of reporting `total_fires = 0` and `total_area_ha = 0`. -/
theorem emptyRange_evaluation :
    rangeFilter 2021 2021 oneRecord = [] ∧
    summaryStats (rangeFilter 2021 2021 oneRecord) = none ∧
    (circleGrid oneRecord 2021 2021).length = 12 ∧
    (∀ c ∈ circleGrid oneRecord 2021 2021,
      c.count = 0 ∧ c.area = 0 ∧
      cellRadius (circleGrid oneRecord 2021 2021) c = 1 ∧
      cellIntensity (circleGrid oneRecord 2021 2021) c = 0) := by
  have hmaxA : maxArea (circleGrid oneRecord 2021 2021) = 0 := by decide
  have hmaxC : maxCount (circleGrid oneRecord 2021 2021) = 0 := by decide
  have hz : ∀ c ∈ circleGrid oneRecord 2021 2021,
      c.count = 0 ∧ c.area = 0 := by decide
  refine ⟨by decide, by decide, by decide, ?_⟩
  intro c hc
  refine ⟨(hz c hc).1, (hz c hc).2, ?_, ?_⟩
  · unfold cellRadius
    rw [if_neg (by simp [hmaxA])]
  · unfold cellIntensity
    rw [if_neg (by simp [hmaxC])]

/-- C8: the range filter is idempotent — filtering an already-filtered
dataset with the same bounds returns it unchanged.  (Determinism of a whole
interaction is definitional here: both callbacks are pure functions of the
dataset and the range.) -/
theorem rangeFilter_idem (a b : ℤ) (l : List (FireRecord G)) :
    rangeFilter a b (rangeFilter a b l) = rangeFilter a b l := by
  simp [rangeFilter, List.filter_filter]

end Calabria

